import Mathlib

/-!
Verification of the physics core of `src/scenes/test1.py` (class
`PendulumTwoCycle`): two equal-length pendulums sharing a pivot, with
elastic bottom-of-swing collisions, driven by a variable-frame-rate updater
that subdivides each elapsed delta into fixed internal sub-steps.

The Python floats are modelled as exact rationals: the whole dynamics is
rational arithmetic on the literal constants of the scene (`9.8`, `3.0`,
`2e-2`, `1/240`, `0.08`, ...).
-/

namespace PendulumTwoCycle

/-- Constant `g = 9.8` from the source. -/
def g : ℚ := 49/5

/-- Constant `l = 3.0` from the source (pendulum length). -/
def l : ℚ := 3

/-- Constant `m1 = 2.0` from the source (heavy body). -/
def m1 : ℚ := 2

/-- Constant `m2 = 1.0` from the source (light body). -/
def m2 : ℚ := 1

/-- Constant `u = 1.0` from the source (pre-collision tangential speed). -/
def u : ℚ := 1

/-- Constant `eps = 2e-2` from the source (proximity tolerance). -/
def eps : ℚ := 1/50

/-- Constant `internal_dt = 1 / 240.0` from the source (internal sub-step). -/
def internal_dt : ℚ := 1/240

/-- Constant `speed = 1.0` from the source (playback speed multiplier). -/
def speed : ℚ := 1

/-- Constant `0.08`, the value assigned to `collide_cooldown` on a hit. -/
def cooldownValue : ℚ := 2/25

/-- The elastic-collision transform `collide(om1, om2)` of the source:
one-dimensional elastic collision applied directly to the angular
velocities (the common length cancels). -/
def collide (om1 om2 : ℚ) : ℚ × ℚ :=
  let v1 := om1
  let v2 := om2
  (((m1 - m2) / (m1 + m2)) * v1 + (2 * m2 / (m1 + m2)) * v2,
   (2 * m1 / (m1 + m2)) * v1 + ((m2 - m1) / (m1 + m2)) * v2)

/-- The mutable `state` dictionary of the source: both angles, both angular
velocities, simulation clock `t`, and the collision cooldown timer. -/
@[ext]
structure SimState where
  theta1 : ℚ
  theta2 : ℚ
  omega1 : ℚ
  omega2 : ℚ
  t : ℚ
  collide_cooldown : ℚ
  deriving DecidableEq

/-- The construction-time velocities: `omega1 = u / l`, `omega2 = 0.0`,
then `omega1, omega2 = collide(omega1, omega2)` is applied once at `t = 0`. -/
def initOmega : ℚ × ℚ := collide (u / l) 0

/-- The initial `state` dictionary: zero angles, the once-collided
velocities, `t = 0`, `collide_cooldown = 0`. -/
def initState : SimState :=
  { theta1 := 0
    theta2 := 0
    omega1 := initOmega.1
    omega2 := initOmega.2
    t := 0
    collide_cooldown := 0 }

/-- Velocity update of body 1 in one sub-step:
`omega1 += -(g / l) * theta1 * h`, with the pre-step angle. -/
def postOmega1 (s : SimState) (h : ℚ) : ℚ := s.omega1 + (-(g / l)) * s.theta1 * h

/-- Velocity update of body 2 in one sub-step. -/
def postOmega2 (s : SimState) (h : ℚ) : ℚ := s.omega2 + (-(g / l)) * s.theta2 * h

/-- Angle update of body 1: `theta1 += omega1 * h`, with the already-updated
velocity (Euler-Cromer ordering of the source). -/
def postTheta1 (s : SimState) (h : ℚ) : ℚ := s.theta1 + postOmega1 s h * h

/-- Angle update of body 2. -/
def postTheta2 (s : SimState) (h : ℚ) : ℚ := s.theta2 + postOmega2 s h * h

/-- Cooldown countdown of one sub-step:
`if collide_cooldown > 0: collide_cooldown -= h`. -/
def postCooldown (s : SimState) (h : ℚ) : ℚ :=
  if s.collide_cooldown > 0 then s.collide_cooldown - h else s.collide_cooldown

/-- The collision test of the source, on the post-integration values of the
same sub-step: `near_zero and crossing and collide_cooldown <= 0.0`, where
`near_zero` compares both new angles against `eps` and `crossing` multiplies
each body's pre-step angle with its post-step angle. -/
def fireCond (s : SimState) (h : ℚ) : Prop :=
  (|postTheta1 s h| < eps ∧ |postTheta2 s h| < eps) ∧
  (s.theta1 * postTheta1 s h ≤ 0 ∧ s.theta2 * postTheta2 s h ≤ 0) ∧
  postCooldown s h ≤ 0

instance (s : SimState) (h : ℚ) : Decidable (fireCond s h) := by
  unfold fireCond
  infer_instance

/-- One iteration of the sub-step loop of `evolve` (lines 163-184 of the
source): Euler-Cromer integration of both bodies, clock advance, cooldown
countdown, three-gate collision test; on a hit the elastic transform is
applied to the updated velocities and the cooldown is reset to `0.08`.
The returned `Bool` records whether the collision branch (the branch that
calls `collide` and `flash_hit`) was taken. -/
def substep (s : SimState) (h : ℚ) : SimState × Bool :=
  if fireCond s h then
    ({ theta1 := postTheta1 s h, theta2 := postTheta2 s h,
       omega1 := (collide (postOmega1 s h) (postOmega2 s h)).1,
       omega2 := (collide (postOmega1 s h) (postOmega2 s h)).2,
       t := s.t + h, collide_cooldown := cooldownValue }, true)
  else
    ({ theta1 := postTheta1 s h, theta2 := postTheta2 s h,
       omega1 := postOmega1 s h, omega2 := postOmega2 s h,
       t := s.t + h, collide_cooldown := postCooldown s h }, false)

/-- `steps = max(1, int(np.ceil((dt * speed) / internal_dt)))` of the source. -/
def tickSteps (dt : ℚ) : ℤ := max 1 ⌈(dt * speed) / internal_dt⌉

/-- `h = (dt * speed) / steps` of the source. -/
def tickH (dt : ℚ) : ℚ := (dt * speed) / ((tickSteps dt : ℤ) : ℚ)

/-- The `for _ in range(steps)` loop of `evolve`: `n` iterations of the
sub-step with a fixed step size `h`, counting collision events. -/
def runSteps (n : ℕ) (h : ℚ) (s : SimState) : SimState × ℕ :=
  match n with
  | 0 => (s, 0)
  | n + 1 =>
      let r := substep s h
      let rest := runSteps n h r.1
      (rest.1, (if r.2 then 1 else 0) + rest.2)

/-- The updater `evolve(mob, dt)` of the source: subdivide the elapsed delta
into `steps` sub-steps of size `h` and run the loop. -/
def evolve (s : SimState) (dt : ℚ) : SimState × ℕ :=
  runSteps (tickSteps dt).toNat (tickH dt) s

/-- The sub-step loop over an arbitrary list of step sizes: the sub-steps of
consecutive ticks, whose `h` may differ from tick to tick. -/
def runList (s : SimState) : List ℚ → SimState × ℕ
  | [] => (s, 0)
  | h :: hs =>
      let r := substep s h
      let rest := runList r.1 hs
      (rest.1, (if r.2 then 1 else 0) + rest.2)

/-- Kinetic-energy bar heights from `update_bars` of the source:
`K_i = 0.5 * m_i * l**2 * omega_i**2`, shares `K_i / total` clipped to
`[0, 1]`, with the `total <= 1e-12` guard returning zero heights. -/
def barHeights (s : SimState) : ℚ × ℚ :=
  let K1 := (1/2) * m1 * l^2 * s.omega1^2
  let K2 := (1/2) * m2 * l^2 * s.omega2^2
  let total := K1 + K2
  if total ≤ 1/1000000000000 then (0, 0)
  else (min (max (K1 / total) 0) 1, min (max (K2 / total) 0) 1)

/-- The states reachable from the constructed initial state through a
sequence of ticks with non-negative elapsed deltas. -/
inductive Reachable : SimState → Prop
  | base : Reachable initState
  | step (s : SimState) (dt : ℚ) (hdt : 0 ≤ dt) (hr : Reachable s) :
      Reachable (evolve s dt).1

/-! Helper lemmas shared by the claim theorems. -/

lemma substep_fire_eq (s : SimState) (h : ℚ) (hc : fireCond s h) :
    substep s h =
      ({ theta1 := postTheta1 s h, theta2 := postTheta2 s h,
         omega1 := (collide (postOmega1 s h) (postOmega2 s h)).1,
         omega2 := (collide (postOmega1 s h) (postOmega2 s h)).2,
         t := s.t + h, collide_cooldown := cooldownValue }, true) := by
  unfold substep
  rw [if_pos hc]

lemma substep_not_fire_eq (s : SimState) (h : ℚ) (hc : ¬ fireCond s h) :
    substep s h =
      ({ theta1 := postTheta1 s h, theta2 := postTheta2 s h,
         omega1 := postOmega1 s h, omega2 := postOmega2 s h,
         t := s.t + h, collide_cooldown := postCooldown s h }, false) := by
  unfold substep
  rw [if_neg hc]

lemma substep_snd_true_iff (s : SimState) (h : ℚ) :
    (substep s h).2 = true ↔ fireCond s h := by
  by_cases hc : fireCond s h
  · rw [substep_fire_eq s h hc]
    simpa using hc
  · rw [substep_not_fire_eq s h hc]
    simpa using hc

lemma substep_theta1 (s : SimState) (h : ℚ) :
    (substep s h).1.theta1 = postTheta1 s h := by
  by_cases hc : fireCond s h
  · rw [substep_fire_eq s h hc]
  · rw [substep_not_fire_eq s h hc]

lemma substep_theta2 (s : SimState) (h : ℚ) :
    (substep s h).1.theta2 = postTheta2 s h := by
  by_cases hc : fireCond s h
  · rw [substep_fire_eq s h hc]
  · rw [substep_not_fire_eq s h hc]

lemma substep_t (s : SimState) (h : ℚ) :
    (substep s h).1.t = s.t + h := by
  by_cases hc : fireCond s h
  · rw [substep_fire_eq s h hc]
  · rw [substep_not_fire_eq s h hc]

lemma substep_cooldown_of_fire (s : SimState) (h : ℚ)
    (hf : (substep s h).2 = true) :
    (substep s h).1.collide_cooldown = cooldownValue := by
  by_cases hc : fireCond s h
  · rw [substep_fire_eq s h hc]
  · rw [substep_not_fire_eq s h hc] at hf
    simp at hf

lemma substep_no_fire (s : SimState) (h : ℚ)
    (hf : (substep s h).2 = false) :
    (substep s h).1 =
      { theta1 := postTheta1 s h, theta2 := postTheta2 s h,
        omega1 := postOmega1 s h, omega2 := postOmega2 s h,
        t := s.t + h, collide_cooldown := postCooldown s h } := by
  by_cases hc : fireCond s h
  · rw [substep_fire_eq s h hc] at hf
    simp at hf
  · rw [substep_not_fire_eq s h hc]

lemma substep_blocked (s : SimState) (h : ℚ)
    (hpos : 0 < postCooldown s h) :
    (substep s h).2 = false ∧
    (substep s h).1.collide_cooldown = postCooldown s h := by
  have hc : ¬ fireCond s h := by
    intro hx
    exact absurd hx.2.2 (not_le.mpr hpos)
  rw [substep_not_fire_eq s h hc]
  exact ⟨rfl, rfl⟩

lemma runSteps_zero (h : ℚ) (s : SimState) : runSteps 0 h s = (s, 0) := rfl

lemma runSteps_succ (n : ℕ) (h : ℚ) (s : SimState) :
    runSteps (n + 1) h s =
      ((runSteps n h (substep s h).1).1,
       (if (substep s h).2 then 1 else 0) + (runSteps n h (substep s h).1).2) := rfl

lemma runSteps_t (n : ℕ) (h : ℚ) (s : SimState) :
    (runSteps n h s).1.t = s.t + (n : ℚ) * h := by
  induction n generalizing s with
  | zero => simp [runSteps]
  | succ n ih =>
      rw [runSteps_succ]
      push_cast
      show (runSteps n h (substep s h).1).1.t = s.t + ((n : ℚ) + 1) * h
      rw [ih, substep_t]
      ring

lemma runSteps_count_pos (n : ℕ) (h : ℚ) (s : SimState)
    (hf : (substep s h).2 = true) :
    1 ≤ (runSteps (n + 1) h s).2 := by
  rw [runSteps_succ, hf]
  simp

lemma substep_cooldown_lb (s : SimState) (h : ℚ) (h1 : h ≤ internal_dt)
    (hlb : -internal_dt < s.collide_cooldown) :
    -internal_dt < (substep s h).1.collide_cooldown := by
  by_cases hc : fireCond s h
  · rw [substep_fire_eq s h hc]
    show -internal_dt < cooldownValue
    norm_num [internal_dt, cooldownValue]
  · rw [substep_not_fire_eq s h hc]
    show -internal_dt < postCooldown s h
    unfold postCooldown
    split
    · rename_i h2
      linarith
    · exact hlb

lemma runSteps_cooldown_lb (n : ℕ) (h : ℚ) (s : SimState) (h1 : h ≤ internal_dt)
    (hlb : -internal_dt < s.collide_cooldown) :
    -internal_dt < (runSteps n h s).1.collide_cooldown := by
  induction n generalizing s with
  | zero => exact hlb
  | succ n ih =>
      rw [runSteps_succ]
      exact ih _ (substep_cooldown_lb s h h1 hlb)

lemma runList_no_fire (hs : List ℚ) (s : SimState)
    (hnn : ∀ x ∈ hs, 0 ≤ x) (hsum : hs.sum < s.collide_cooldown) :
    (runList s hs).2 = 0 ∧
    s.collide_cooldown - hs.sum ≤ (runList s hs).1.collide_cooldown := by
  induction hs generalizing s with
  | nil =>
      refine ⟨rfl, ?_⟩
      show s.collide_cooldown - ([] : List ℚ).sum ≤ s.collide_cooldown
      simp
  | cons h hs ih =>
      have hnn' : ∀ x ∈ hs, 0 ≤ x := fun x hx => hnn x (List.mem_cons_of_mem _ hx)
      have hh : 0 ≤ h := hnn h (List.mem_cons_self _ _)
      have hsum' : h + hs.sum < s.collide_cooldown := by
        rw [← List.sum_cons]
        exact hsum
      have hrest : 0 ≤ hs.sum := List.sum_nonneg hnn'
      have hcdpos : 0 < s.collide_cooldown := by linarith
      have hpc : postCooldown s h = s.collide_cooldown - h := by
        unfold postCooldown
        rw [if_pos hcdpos]
      have hppos : 0 < postCooldown s h := by
        rw [hpc]
        linarith
      obtain ⟨hf, hcd⟩ := substep_blocked s h hppos
      have hlt : hs.sum < (substep s h).1.collide_cooldown := by
        rw [hcd, hpc]
        linarith
      obtain ⟨hc0, hcle⟩ := ih (substep s h).1 hnn' hlt
      have hun : runList s (h :: hs) =
          ((runList (substep s h).1 hs).1,
           (if (substep s h).2 then 1 else 0) + (runList (substep s h).1 hs).2) := rfl
      rw [hun, hf, hc0]
      refine ⟨rfl, ?_⟩
      have hgoal : s.collide_cooldown - (h :: hs).sum =
          ((substep s h).1.collide_cooldown - hs.sum) - 0 := by
        rw [hcd, hpc, List.sum_cons]
        ring
      rw [hgoal]
      simpa using hcle

lemma tickSteps_ge_one (dt : ℚ) : 1 ≤ tickSteps dt := le_max_left 1 _

lemma tickSteps_of_pos (dt : ℚ) (hdt : 0 < dt) :
    tickSteps dt = ⌈(dt * speed) / internal_dt⌉ := by
  have hX : 0 < dt * speed := by
    rw [speed]
    linarith
  have hc : (0:ℚ) < internal_dt := by norm_num [internal_dt]
  have hceil : 0 < ⌈(dt * speed) / internal_dt⌉ :=
    Int.ceil_pos.mpr (div_pos hX hc)
  exact max_eq_right hceil

lemma tickH_pos_le (dt : ℚ) (hdt : 0 < dt) :
    0 < tickH dt ∧ tickH dt ≤ internal_dt := by
  have hX : 0 < dt * speed := by
    rw [speed]
    linarith
  have hc : (0:ℚ) < internal_dt := by norm_num [internal_dt]
  have hceil : 0 < ⌈(dt * speed) / internal_dt⌉ :=
    Int.ceil_pos.mpr (div_pos hX hc)
  have hsteps : tickSteps dt = ⌈(dt * speed) / internal_dt⌉ :=
    tickSteps_of_pos dt hdt
  have hstepsQ : (0:ℚ) < ((tickSteps dt : ℤ) : ℚ) := by
    rw [hsteps]
    exact_mod_cast hceil
  constructor
  · exact div_pos hX hstepsQ
  · rw [tickH, div_le_iff₀ hstepsQ]
    have h1 : (dt * speed) / internal_dt ≤ ((⌈(dt * speed) / internal_dt⌉ : ℤ) : ℚ) :=
      Int.le_ceil _
    rw [div_le_iff₀ hc] at h1
    rw [hsteps]
    linarith

lemma tickH_zero : tickH 0 = 0 := by
  rw [tickH]
  simp

lemma tickH_nonneg_le (dt : ℚ) (hdt : 0 ≤ dt) :
    0 ≤ tickH dt ∧ tickH dt ≤ internal_dt := by
  rcases eq_or_lt_of_le hdt with h0 | hpos
  · rw [← h0, tickH_zero]
    norm_num [internal_dt]
  · have h := tickH_pos_le dt hpos
    exact ⟨le_of_lt h.1, h.2⟩

lemma initState_eq : initState = SimState.mk 0 0 (1/9) (4/9) 0 0 := by
  simp [initState, initOmega, collide, m1, m2, u, l]
  norm_num

/-! The claim theorems. -/

/-- Claim C1: for every pair of angular velocities and the scene's fixed
positive masses, the Collision Resolver `collide` preserves the momentum sum
`m1*v1 + m2*v2` and the kinetic-energy sum `0.5*m1*v1^2 + 0.5*m2*v2^2`. -/
theorem collide_conserves_momentum_and_energy (v1 v2 : ℚ) :
    m1 * (collide v1 v2).1 + m2 * (collide v1 v2).2 = m1 * v1 + m2 * v2 ∧
    (1/2) * m1 * (collide v1 v2).1 ^ 2 + (1/2) * m2 * (collide v1 v2).2 ^ 2
      = (1/2) * m1 * v1 ^ 2 + (1/2) * m2 * v2 ^ 2 := by
  constructor <;> (simp only [collide, m1, m2]; ring)

/-- Claim C2: in every sub-step the Resolver branch is taken if and only if
all three gates hold on the post-integration values of that sub-step: both
new angles strictly within `eps`, both products of pre-step angle and
post-step angle at most `0`, and the (already counted down) cooldown at most
`0`. -/
theorem resolver_iff_three_gates (s : SimState) (h : ℚ) :
    (substep s h).2 = true ↔
      (|postTheta1 s h| < eps ∧ |postTheta2 s h| < eps) ∧
      (s.theta1 * postTheta1 s h ≤ 0 ∧ s.theta2 * postTheta2 s h ≤ 0) ∧
      postCooldown s h ≤ 0 := by
  rw [substep_snd_true_iff]
  unfold fireCond
  rfl

/-- Claim C3: the Frame Driver computes `steps = ceil(speed*dt/internalStep)`
clamped to at least `1` and `h = speed*dt/steps`, and the sub-steps sum
exactly to the requested scaled elapsed time: `steps * h = speed * dt`, so
`simTime` advances by exactly `speed * dt` per tick. -/
theorem frame_driver_reconstructs_time (s : SimState) (dt : ℚ) :
    tickSteps dt = max 1 ⌈speed * dt / internal_dt⌉ ∧
    1 ≤ tickSteps dt ∧
    ((tickSteps dt : ℤ) : ℚ) * tickH dt = speed * dt ∧
    (evolve s dt).1.t = s.t + speed * dt := by
  have h2 : 1 ≤ tickSteps dt := tickSteps_ge_one dt
  have hQ : ((tickSteps dt : ℤ) : ℚ) ≠ 0 := by
    have h3 : (0:ℤ) < tickSteps dt := lt_of_lt_of_le one_pos h2
    exact_mod_cast h3.ne'
  have h3 : ((tickSteps dt : ℤ) : ℚ) * tickH dt = speed * dt := by
    rw [tickH, mul_comm ((tickSteps dt : ℤ) : ℚ), div_mul_cancel₀ _ hQ, mul_comm]
  refine ⟨by rw [tickSteps, mul_comm], h2, h3, ?_⟩
  have h5 : (((tickSteps dt).toNat : ℕ) : ℚ) = ((tickSteps dt : ℤ) : ℚ) := by
    have h6 : ((tickSteps dt).toNat : ℤ) = tickSteps dt := Int.toNat_of_nonneg (by omega)
    exact_mod_cast h6
  rw [evolve, runSteps_t, h5, h3]

/-- Claim C4: in every sub-step each body's angle is advanced with the
already-updated angular velocity, `theta += (omega + (-(g/l))*theta*h) * h`
(semi-implicit Euler ordering); and whenever the collision branch is not
taken, the resulting velocity is exactly the integrator's update
`omega + (-(g/l))*theta*h` computed from the pre-step angle. -/
theorem integrator_semi_implicit_order (s : SimState) (h : ℚ) :
    (substep s h).1.theta1 = s.theta1 + (s.omega1 + (-(g / l)) * s.theta1 * h) * h ∧
    (substep s h).1.theta2 = s.theta2 + (s.omega2 + (-(g / l)) * s.theta2 * h) * h ∧
    ((substep s h).2 = false →
      (substep s h).1.omega1 = s.omega1 + (-(g / l)) * s.theta1 * h ∧
      (substep s h).1.omega2 = s.omega2 + (-(g / l)) * s.theta2 * h) := by
  refine ⟨?_, ?_, ?_⟩
  · rw [substep_theta1]
    rfl
  · rw [substep_theta2]
    rfl
  · intro hf
    rw [substep_no_fire s h hf]
    exact ⟨rfl, rfl⟩

/-- Witness for C4 at a concrete non-colliding state. -/
theorem integrator_semi_implicit_order_witness :
    (substep (SimState.mk 1 0 0 0 0 0) (1/240)).1.omega1
        = 0 + (-(g / l)) * 1 * (1/240) ∧
    (substep (SimState.mk 1 0 0 0 0 0) (1/240)).1.omega2
        = 0 + (-(g / l)) * 0 * (1/240) :=
  (integrator_semi_implicit_order (SimState.mk 1 0 0 0 0 0) (1/240)).2.2 (by
    norm_num [substep, fireCond, postTheta1, postTheta2, postOmega1, postOmega2,
      postCooldown, eps, g, l, abs, max_def])

/-- Claim C5 counterexample: ticking the freshly constructed state with an
elapsed delta of `0` does not leave the state unchanged: the zero-length
sub-step satisfies all three gates (both angles are exactly `0` and the
cooldown is `0`), so the Resolver fires, transforming the velocities and
setting the cooldown to `0.08`. -/
theorem tick_zero_mutates_initial_state : (evolve initState 0).1 ≠ initState := by
  intro hEq
  have h1 : (evolve initState 0).1.collide_cooldown = 2/25 := by
    norm_num [evolve, tickSteps, tickH, speed, internal_dt, runSteps, substep,
      fireCond, postOmega1, postOmega2, postTheta1, postTheta2, postCooldown,
      initState, initOmega, collide, m1, m2, u, g, l, eps, cooldownValue, abs,
      max_def]
  rw [hEq] at h1
  norm_num [initState] at h1

/-- Claim C5 amended: `tick(0)` leaves the state unchanged whenever the
zero-length sub-step does not re-fire the detector, i.e. unless both angles
are exactly `0` while the cooldown is not positive. -/
theorem tick_zero_noop_unless_refire (s : SimState)
    (hgate : s.theta1 ≠ 0 ∨ s.theta2 ≠ 0 ∨ 0 < s.collide_cooldown) :
    (evolve s 0).1 = s := by
  have hsteps : (tickSteps 0).toNat = 1 := by
    have h : tickSteps 0 = 1 := by norm_num [tickSteps, speed, internal_dt]
    rw [h]
    rfl
  have hrun : (evolve s 0).1 = (substep s 0).1 := by
    rw [evolve, hsteps, tickH_zero]
    rfl
  rw [hrun]
  have ht1 : postTheta1 s 0 = s.theta1 := by
    unfold postTheta1 postOmega1
    ring
  have ht2 : postTheta2 s 0 = s.theta2 := by
    unfold postTheta2 postOmega2
    ring
  have ho1 : postOmega1 s 0 = s.omega1 := by
    unfold postOmega1
    ring
  have ho2 : postOmega2 s 0 = s.omega2 := by
    unfold postOmega2
    ring
  have hcd : postCooldown s 0 = s.collide_cooldown := by
    unfold postCooldown
    split <;> ring
  have hnc : ¬ fireCond s 0 := by
    unfold fireCond
    rw [ht1, ht2, hcd]
    rcases hgate with h1 | h1 | h1
    · intro hx
      exact absurd hx.2.1.1 (not_le.mpr (mul_self_pos.mpr h1))
    · intro hx
      exact absurd hx.2.1.2 (not_le.mpr (mul_self_pos.mpr h1))
    · intro hx
      exact absurd hx.2.2 (not_le.mpr h1)
  rw [substep_not_fire_eq s 0 hnc]
  ext <;> simp [ht1, ht2, ho1, ho2, hcd]

/-- Witness for the amended C5 at a concrete state with a nonzero angle. -/
theorem tick_zero_noop_unless_refire_witness :
    (evolve (SimState.mk 1 0 0 0 0 0) 0).1 = SimState.mk 1 0 0 0 0 0 :=
  tick_zero_noop_unless_refire (SimState.mk 1 0 0 0 0 0) (Or.inl (by norm_num))

/-- Claim C6: a fired collision sets the cooldown to `0.08`, and any run of
further sub-steps with non-negative step sizes totalling less than `0.08`
of simulated time applies the Resolver zero more times, so two gate-
satisfying sub-steps within the cooldown window produce exactly one
application. -/
theorem cooldown_blocks_second_fire (s : SimState) (h : ℚ) (hs : List ℚ)
    (hfire : (substep s h).2 = true)
    (hnn : ∀ x ∈ hs, 0 ≤ x) (hsum : hs.sum < cooldownValue) :
    (substep s h).1.collide_cooldown = cooldownValue ∧
    (runList (substep s h).1 hs).2 = 0 := by
  have h1 := substep_cooldown_of_fire s h hfire
  refine ⟨h1, ?_⟩
  refine (runList_no_fire hs (substep s h).1 hnn ?_).1
  rw [h1]
  exact hsum

/-- Witness for C6: the first sub-step from the initial state fires, and two
further sub-steps of `1/240` (well inside the `0.08` window) fire nothing. -/
theorem cooldown_blocks_second_fire_witness :
    (substep initState (1/240)).2 = true ∧
    ((substep initState (1/240)).1.collide_cooldown = cooldownValue ∧
     (runList (substep initState (1/240)).1 [1/240, 1/240]).2 = 0) :=
  ⟨by norm_num [substep, fireCond, postOmega1, postOmega2, postTheta1,
      postTheta2, postCooldown, initState, initOmega, collide, m1, m2, u, g, l,
      eps, abs, max_def],
   cooldown_blocks_second_fire initState (1/240) [1/240, 1/240]
    (by norm_num [substep, fireCond, postOmega1, postOmega2, postTheta1,
      postTheta2, postCooldown, initState, initOmega, collide, m1, m2, u, g, l,
      eps, abs, max_def])
    (by norm_num)
    (by norm_num [cooldownValue])⟩

/-- Claim C7: from the freshly initialized state, the very first sub-step of
any tick with positive delta satisfies all three gates (the crossing
products are `0` because the pre-step angles are `0`, the post-step angles
are within `eps` since the sub-step is at most `1/240`, and the cooldown is
`0`), so the Resolver fires again on that first sub-step. -/
theorem first_substep_fires_again (dt : ℚ) (hdt : 0 < dt) :
    (substep initState (tickH dt)).2 = true ∧ 1 ≤ (evolve initState dt).2 := by
  obtain ⟨hpos, hle⟩ := tickH_pos_le dt hdt
  have hle' : tickH dt ≤ 1/240 := hle
  have hfire : fireCond initState (tickH dt) := by
    rw [initState_eq]
    unfold fireCond
    have e1 : postTheta1 (SimState.mk 0 0 (1/9) (4/9) 0 0) (tickH dt)
        = (1/9) * tickH dt := by
      simp [postTheta1, postOmega1]
    have e2 : postTheta2 (SimState.mk 0 0 (1/9) (4/9) 0 0) (tickH dt)
        = (4/9) * tickH dt := by
      simp [postTheta2, postOmega2]
    have e3 : postCooldown (SimState.mk 0 0 (1/9) (4/9) 0 0) (tickH dt) = 0 := by
      unfold postCooldown
      norm_num
    rw [e1, e2, e3]
    refine ⟨⟨?_, ?_⟩, ⟨?_, ?_⟩, le_refl 0⟩
    · rw [abs_of_pos (by positivity)]
      show (1/9) * tickH dt < 1/50
      linarith
    · rw [abs_of_pos (by positivity)]
      show (4/9) * tickH dt < 1/50
      linarith
    · show (0:ℚ) * ((1/9) * tickH dt) ≤ 0
      simp
    · show (0:ℚ) * ((4/9) * tickH dt) ≤ 0
      simp
  have hfireInit : (substep initState (tickH dt)).2 = true := by
    rw [(substep_snd_true_iff initState (tickH dt))]
    exact hfire
  refine ⟨hfireInit, ?_⟩
  have h1 : 1 ≤ tickSteps dt := tickSteps_ge_one dt
  obtain ⟨k, hk⟩ : ∃ k, (tickSteps dt).toNat = k + 1 :=
    ⟨(tickSteps dt).toNat - 1, by omega⟩
  rw [evolve, hk]
  exact runSteps_count_pos k (tickH dt) initState hfireInit

/-- Witness for C7 at delta `1`. -/
theorem first_substep_fires_again_witness :
    (substep initState (tickH 1)).2 = true ∧ 1 ≤ (evolve initState 1).2 :=
  first_substep_fires_again 1 (by norm_num)

/-- Claim C8: with the scene's constants, the construction-time Resolver
application yields exactly `omega1 = (1/3)*u/l` and `omega2 = (4/3)*u/l`,
and the kinetic-energy shares shown by the bars are exactly `1/9` and
`8/9`. -/
theorem initial_velocities_and_energy_split :
    initState.omega1 = (1/3) * u / l ∧ initState.omega2 = (4/3) * u / l ∧
    barHeights initState = (1/9, 8/9) := by
  rw [initState_eq]
  refine ⟨by norm_num [u, l], by norm_num [u, l], ?_⟩
  norm_num [barHeights, m1, m2, l, max_def, min_def, Prod.ext_iff]

set_option maxHeartbeats 4000000 in
set_option maxRecDepth 100000 in
/-- Claim C9 counterexample: the cooldown can become negative in a reachable
state: tick the initial state with delta `1/12` (the first sub-step fires
and sets the cooldown to `0.08`; the 19 remaining sub-steps count it down
to `1/1200`), then tick with delta `1/240`: the next sub-step decrements it
to `-1/300 < 0` and the detector does not re-fire. -/
theorem cooldown_becomes_negative :
    Reachable (evolve (evolve initState (1/12)).1 (1/240)).1 ∧
    (evolve (evolve initState (1/12)).1 (1/240)).1.collide_cooldown < 0 := by
  constructor
  · exact Reachable.step _ _ (by norm_num)
      (Reachable.step _ _ (by norm_num) Reachable.base)
  · norm_num [evolve, tickSteps, tickH, speed, internal_dt, Int.toNat_ofNat,
      runSteps, substep, fireCond, postOmega1, postOmega2, postTheta1,
      postTheta2, postCooldown, initState, initOmega, collide, m1, m2, u, g, l,
      eps, cooldownValue, abs, max_def]

/-- Claim C9 amended: in every reachable state the cooldown starts at `0`,
is reset to `0.08` on a fired collision and counts down while positive, but
it can undershoot zero by less than one sub-step: it always stays strictly
above `-internal_dt = -1/240`, yet (per the counterexample) it does become
negative. -/
theorem cooldown_stays_above_neg_substep (s : SimState) (hr : Reachable s) :
    -internal_dt < s.collide_cooldown := by
  induction hr with
  | base =>
      show -internal_dt < (0:ℚ)
      norm_num [internal_dt]
  | step s dt hdt hr ih =>
      exact runSteps_cooldown_lb _ _ _ (tickH_nonneg_le dt hdt).2 ih

/-- Witness for the amended C9 at the initial state. -/
theorem cooldown_stays_above_neg_substep_witness :
    -internal_dt < initState.collide_cooldown :=
  cooldown_stays_above_neg_substep initState Reachable.base

/-- Claim C10 counterexample: a negative elapsed delta is not rejected: the
code has no validation path, `steps` clamps to `1`, and the tick silently
integrates backward, changing the state (here `t` becomes `-1`). -/
theorem negative_delta_updates_silently :
    (evolve initState (-1)).1.t = -1 ∧ (evolve initState (-1)).1 ≠ initState := by
  have hceil : ⌈((-1 : ℚ) * speed) / internal_dt⌉ = -240 := by
    norm_num [speed, internal_dt, Int.ceil_eq_iff]
  have hsteps1 : tickSteps (-1) = 1 := by
    rw [tickSteps, hceil]
    rfl
  have hsteps : (tickSteps (-1)).toNat = 1 := by
    rw [hsteps1]
    rfl
  have hH : tickH (-1) = -1 := by
    rw [tickH, hsteps1]
    norm_num [speed]
  have ht : (evolve initState (-1)).1.t = -1 := by
    rw [evolve, hsteps, hH, runSteps_t]
    norm_num [initState]
  refine ⟨ht, ?_⟩
  intro heq
  rw [heq] at ht
  norm_num [initState] at ht

/-- Claim C10 amended: for every negative delta the tick function processes
the input silently instead of failing: `steps` clamps to `1` and the state
is integrated backward with a single sub-step, advancing `simTime` by the
negative amount `speed * dt`. -/
theorem negative_delta_single_backward_step (s : SimState) (dt : ℚ)
    (hdt : dt < 0) :
    tickSteps dt = 1 ∧ (evolve s dt).1.t = s.t + speed * dt := by
  have hc : (0:ℚ) < internal_dt := by norm_num [internal_dt]
  have hX : dt * speed ≤ 0 := by
    rw [speed]
    linarith
  have hdivnp : (dt * speed) / internal_dt ≤ 0 :=
    div_nonpos_iff.mpr (Or.inr ⟨hX, le_of_lt hc⟩)
  have hceil : ⌈(dt * speed) / internal_dt⌉ ≤ 0 := by
    rw [Int.ceil_le]
    exact_mod_cast hdivnp
  have hsteps : tickSteps dt = 1 := by
    rw [tickSteps]
    exact max_eq_left (by omega)
  have h1 : (tickSteps dt).toNat = 1 := by
    rw [hsteps]
    rfl
  have hH : tickH dt = dt * speed := by
    rw [tickH, hsteps]
    norm_num
  refine ⟨hsteps, ?_⟩
  rw [evolve, h1, hH, runSteps_t]
  push_cast
  ring

/-- Witness for the amended C10 at delta `-1`. -/
theorem negative_delta_single_backward_step_witness :
    tickSteps (-1) = 1 ∧ (evolve initState (-1)).1.t = initState.t + speed * (-1) :=
  negative_delta_single_backward_step initState (-1) (by norm_num)

end PendulumTwoCycle
